import Mathlib

/-!
Shallow embedding of the KC-Presentation per-page extraction pipeline.

Numbers of the TypeScript source (JS doubles used as exact decimals in the
code paths below) are modelled as rationals (`ℚ`); element ids produced by
`uuidv4()` are opaque tokens modelled as a fixed placeholder string, since
no property below depends on them; browser/network effects (fetch, canvas,
`Image`) are modelled as explicit environments describing their outcomes.

Sources embedded:
* `src/lib/store/presentation-store.ts` — `hasSignificantOverlap`,
  `deduplicateImages`, `buildTextLayerElements` (merge sweep on converted
  raw items), `updateTextElement`, the page loop of `loadPdfFile`.
* `src/app/api/ocr/route.ts` — `tryPaddleOcr`, `tryVertexAi`,
  `tryGeminiFree`, `parseGeminiResponse`, `POST`.
* `src/lib/pdf/image-cropper.ts` — `cropImageRegions`.
-/

namespace KCPresentation


/-- Axis-aligned rectangle in percentage coordinates:
`{x, y, width, height}` as used throughout the store. -/
structure Box where
  x : ℚ
  y : ℚ
  width : ℚ
  height : ℚ
  deriving DecidableEq

/-- `presentation-store.ts` lines 26-49: check if two bounding boxes
(in % coordinates) overlap significantly (>50% of the smaller area). -/
def hasSignificantOverlap (a b : Box) : Bool :=
  let ax2 := a.x + a.width
  let ay2 := a.y + a.height
  let bx2 := b.x + b.width
  let by2 := b.y + b.height
  let ix1 := max a.x b.x
  let iy1 := max a.y b.y
  let ix2 := min ax2 bx2
  let iy2 := min ay2 by2
  if ix2 ≤ ix1 ∨ iy2 ≤ iy1 then false
  else
    let intersection := (ix2 - ix1) * (iy2 - iy1)
    let areaA := a.width * a.height
    let areaB := b.width * b.height
    let minArea := min areaA areaB
    decide (0 < minArea ∧ 1/2 < intersection / minArea)

/-- An image element of a slide (`ImageElement` of `types/presentation`):
a `Box` plus binary payload metadata. -/
structure ImageElement extends Box where
  id : String
  imageUrl : String
  imageBase64 : String
  mimeType : String
  originalWidth : ℤ
  originalHeight : ℤ
  deriving DecidableEq

/-- `presentation-store.ts` lines 52-63: remove OCR-cropped images that
overlap with PDF-embedded images. -/
def deduplicateImages (pdfImages ocrCroppedImages : List ImageElement) :
    List ImageElement :=
  if pdfImages = [] then ocrCroppedImages
  else
    ocrCroppedImages.filter fun ocrImg =>
      !(pdfImages.any fun pdfImg =>
        hasSignificantOverlap ocrImg.toBox pdfImg.toBox)

/-- Intersection area of two axis-aligned boxes (zero when they do not
properly overlap), written from the spec's overlap formula. -/
def intersectionArea (a b : Box) : ℚ :=
  let iw := min (a.x + a.width) (b.x + b.width) - max a.x b.x
  let ih := min (a.y + a.height) (b.y + b.height) - max a.y b.y
  if 0 < iw ∧ 0 < ih then iw * ih else 0

/-- The spec's overlap measure: `intersectionArea / min(areaA, areaB)`
(intersection over the smaller of the two areas). -/
def overlapRatio (a b : Box) : ℚ :=
  intersectionArea a b / min (a.width * a.height) (b.width * b.height)

/-! ### Text-layer fallback merge sweep (`buildTextLayerElements`) -/

/-- A raw positioned text run, after conversion to page-relative
percentages (`rawItems` entries of `buildTextLayerElements`,
`presentation-store.ts` lines 514-533). The conversion itself (PDF
transform matrices, `Math.sqrt`) belongs to the external page-decoding
collaborator and is not modelled; the sweep below starts from the
converted items, as the source's lines 535-571 do. -/
structure RawItem where
  text : String
  x : ℚ
  y : ℚ
  width : ℚ
  height : ℚ
  fontSize : ℚ
  deriving DecidableEq

/-- The merge condition of the sweep (`presentation-store.ts` line 545):
`Math.abs(item.y - cur.y) <= yTol && xGap < 3` with
`yTol = Math.max(cur.height, item.height) * 0.7` and
`xGap = item.x - (cur.x + cur.width)`. -/
def shouldMerge (cur item : RawItem) : Prop :=
  |item.y - cur.y| ≤ max cur.height item.height * (7/10) ∧
    item.x - (cur.x + cur.width) < 3

instance (cur item : RawItem) : Decidable (shouldMerge cur item) := by
  unfold shouldMerge
  infer_instance

/-- The merge action of the sweep (`presentation-store.ts` lines 546-549):
append the run's text with a space exactly when the gap exceeds 0.5,
extend the width to reach the run's right edge, take the max height and
max font size; `x`, `y` stay those of the open block. -/
def mergeTwo (cur item : RawItem) : RawItem :=
  let xGap := item.x - (cur.x + cur.width)
  { cur with
    text := cur.text ++ ((if 1/2 < xGap then " " else "") ++ item.text)
    width := max cur.width (item.x + item.width - cur.x)
    height := max cur.height item.height
    fontSize := max cur.fontSize item.fontSize }

/-- The single-pass sweep over the sorted runs
(`presentation-store.ts` lines 538-555): `cur` is the open block, each
next run either merges into it or closes it and opens a new block. -/
def mergeLoop : RawItem → List RawItem → List RawItem
  | cur, [] => [cur]
  | cur, item :: rest =>
    if shouldMerge cur item then mergeLoop (mergeTwo cur item) rest
    else cur :: mergeLoop item rest

/-- The sort of `presentation-store.ts` line 537:
`rawItems.sort((a, b) => a.y - b.y || a.x - b.x)` — a stable sort by
ascending `y`, ties by ascending `x`. -/
def sortRuns (l : List RawItem) : List RawItem :=
  l.mergeSort fun a b => decide (a.y < b.y ∨ (a.y = b.y ∧ a.x ≤ b.x))

/-- A text element of a slide (`TextElement` of `types/presentation`). -/
structure TextElement where
  id : String
  text : String
  textKo : String
  textJa : String
  x : ℚ
  y : ℚ
  width : ℚ
  height : ℚ
  fontSize : ℚ
  fontColor : String
  fontWeight : String
  textAlign : String
  isEdited : Bool
  deriving DecidableEq

/-- The final clamping map of `buildTextLayerElements`
(`presentation-store.ts` lines 557-571); the `uuidv4()` id is an opaque
token modelled as a placeholder. -/
def mergedToTextElement (m : RawItem) : TextElement :=
  { id := "uuid"
    text := m.text
    textKo := ""
    textJa := ""
    x := max 0 (min 100 m.x)
    y := max 0 (min 100 m.y)
    width := max 1 (min 100 m.width)
    height := max 1 (min 100 m.height)
    fontSize := m.fontSize
    fontColor := "#000000"
    fontWeight := "normal"
    textAlign := "left"
    isEdited := false }

/-- `presentation-store.ts` lines 508-572 from the converted raw items on:
sort into reading order, sweep-merge, clamp into `TextElement`s. -/
def buildTextLayerElements (rawItems : List RawItem) : List TextElement :=
  match sortRuns rawItems with
  | [] => []
  | first :: rest => (mergeLoop first rest).map mergedToTextElement

/-! ### Constituent tracking for the merge sweep (C7) -/

/-- The sweep of `mergeLoop`, additionally carrying for each open block
the list of runs merged into it, in the order they were consumed.
Projecting the first component recovers `mergeLoop` exactly
(`mergeLoopRuns_fst`). -/
def mergeLoopRuns : RawItem × List RawItem → List RawItem →
    List (RawItem × List RawItem)
  | (cur, grp), [] => [(cur, grp)]
  | (cur, grp), item :: rest =>
    if shouldMerge cur item then
      mergeLoopRuns (mergeTwo cur item, grp ++ [item]) rest
    else (cur, grp) :: mergeLoopRuns (item, [item]) rest

/-! ### Image cropper (`image-cropper.ts`) -/

/-- An OCR-reported image region, percentage based (`ImageRegion` of
`image-cropper.ts`). -/
structure ImageRegion where
  x : ℚ
  y : ℚ
  width : ℚ
  height : ℚ
  deriving DecidableEq

/-- `image-cropper.ts` lines 16-65: crop image regions from a rendered
page image of pixel size `imgWidth × imgHeight`. The canvas drawing, PNG
encoding and Blob URL creation are browser collaborators; their outputs
(`imageUrl`, `imageBase64`) and the `uuidv4()` id are modelled as opaque
placeholders. The constructed box fields and pixel dimensions follow the
source exactly (`Math.max`/`Math.min` clamps, `Math.round` as round half
up). -/
def cropImageRegions (imgWidth imgHeight : ℚ) (regions : List ImageRegion) :
    List ImageElement :=
  regions.map fun region =>
    let sw := max 1 (round (region.width / 100 * imgWidth))
    let sh := max 1 (round (region.height / 100 * imgHeight))
    { x := max 0 (min 100 region.x)
      y := max 0 (min 100 region.y)
      width := max 1 (min 100 region.width)
      height := max 1 (min 100 region.height)
      id := "uuid"
      imageUrl := "blob"
      imageBase64 := "base64"
      mimeType := "image/png"
      originalWidth := sw
      originalHeight := sh }

/-! ### Presentation store state and `updateTextElement` -/

/-- A slide (`Slide` of `types/presentation`). -/
structure Slide where
  id : String
  pageIndex : ℕ
  backgroundImage : String
  backgroundImageBase64 : String
  thumbnailImage : String
  textElements : List TextElement
  imageElements : List ImageElement
  width : ℚ
  height : ℚ
  deriving DecidableEq

/-- A loaded presentation (`Presentation` of `types/presentation`). -/
structure Presentation where
  id : String
  fileName : String
  slides : List Slide
  currentSlideIndex : ℕ
  activeLanguage : String
  outputFormat : String
  inputFileType : String
  deriving DecidableEq

/-- The store's mutable state relevant here (`usePresentationStore`):
processing/translation status are carried opaquely as stage strings. -/
structure StoreState where
  presentation : Option Presentation
  processingStatus : String
  translationStatus : String
  deriving DecidableEq

/-- `Partial<TextElement>`: an update object in which every field may be
absent. -/
structure TextElementUpdates where
  id : Option String := none
  text : Option String := none
  textKo : Option String := none
  textJa : Option String := none
  x : Option ℚ := none
  y : Option ℚ := none
  width : Option ℚ := none
  height : Option ℚ := none
  fontSize : Option ℚ := none
  fontColor : Option String := none
  fontWeight : Option String := none
  textAlign : Option String := none
  isEdited : Option Bool := none
  deriving DecidableEq

/-- The spread `{ ...el, ...updates, isEdited: true }` of
`presentation-store.ts` line 145: each present update field overrides the
element's, and `isEdited` is forced to `true` last. -/
def applyUpdates (el : TextElement) (u : TextElementUpdates) : TextElement :=
  { id := u.id.getD el.id
    text := u.text.getD el.text
    textKo := u.textKo.getD el.textKo
    textJa := u.textJa.getD el.textJa
    x := u.x.getD el.x
    y := u.y.getD el.y
    width := u.width.getD el.width
    height := u.height.getD el.height
    fontSize := u.fontSize.getD el.fontSize
    fontColor := u.fontColor.getD el.fontColor
    fontWeight := u.fontWeight.getD el.fontWeight
    textAlign := u.textAlign.getD el.textAlign
    isEdited := true }

/-- `presentation-store.ts` lines 131-153: `updateTextElement` maps over
the slides, rebuilding the text-element list of every slide whose id
matches, applying the updates to every element whose id matches; no-op
when no presentation is loaded. -/
def updateTextElement (slideId elementId : String) (u : TextElementUpdates)
    (s : StoreState) : StoreState :=
  match s.presentation with
  | none => s
  | some p =>
    let updatedSlides := p.slides.map fun slide =>
      if slide.id ≠ slideId then slide
      else
        { slide with
          textElements := slide.textElements.map fun el =>
            if el.id ≠ elementId then el
            else applyUpdates el u }
    { s with presentation := some { p with slides := updatedSlides } }

/-! ### OCR API route (`src/app/api/ocr/route.ts`) -/

/-- A text element of a backend response after normalization
(`OcrTextElement` of `route.ts`). -/
structure OcrTextElement where
  text : String
  x : ℚ
  y : ℚ
  width : ℚ
  height : ℚ
  fontSize : ℚ
  deriving DecidableEq

/-- An image region of a backend response (`OcrImageRegion`). -/
structure OcrImageRegion where
  x : ℚ
  y : ℚ
  width : ℚ
  height : ℚ
  deriving DecidableEq

/-- The route's unified result shape (`OcrResult` of `route.ts`). -/
structure OcrRouteResult where
  textElements : List OcrTextElement
  imageRegions : List OcrImageRegion
  deriving DecidableEq

/-- A raw text element as it appears in parsed backend JSON: the `text`
field may be absent (`el.text || ""`). -/
structure RawJsonTextElement where
  text : Option String
  x : ℚ
  y : ℚ
  width : ℚ
  height : ℚ
  fontSize : ℚ
  deriving DecidableEq

/-- The shapes `JSON.parse` can produce for a Gemini/Vertex response after
fence stripping (`parseGeminiResponse`): an object whose `textElements`
field may be absent, a bare array, or anything else / unparseable input
(including objects without `textElements`, and parse failures — both end
in the `null` branches of the source). -/
inductive GeminiJson where
  | object (textElements : Option (List RawJsonTextElement))
      (imageRegions : Option (List OcrImageRegion))
  | array (elems : List RawJsonTextElement)
  | malformed

/-- Outcome of a `fetch` call as the route observes it: the call threw
(timeout/network), returned a non-2xx response, or returned ok with a
parsed body. -/
inductive FetchOutcome (α : Type) where
  | thrown (msg : String)
  | notOk
  | ok (body : α)

/-- Parsed body of the local PaddleOCR `/ocr` endpoint:
`data.textElements` may be absent (`data.textElements || []`). -/
structure PaddleBody where
  textElements : Option (List OcrTextElement)
  deriving DecidableEq

/-- The network/configuration environment one `POST /api/ocr` request
runs against. `nfc` is the JS runtime's `String.normalize("NFC")`,
an external collaborator passed in abstractly; `vertexResponse` is
`none` when the Vertex call threw (caught and skipped), `some none` when
it returned no response text, and `some (some j)` when it returned text
whose parsed form is `j`; `geminiCall` is the Gemini Free API call's
outcome when a key is present. -/
structure RouteEnv where
  nfc : String → String
  paddleHealth : FetchOutcome Unit
  paddleOcr : FetchOutcome PaddleBody
  vertexResponse : Option (Option GeminiJson)
  geminiKey : Option String
  geminiCall : Except String GeminiJson

/-- `route.ts` lines 182-218: parse a Gemini/Vertex response — accept an
object with a `textElements` field or a bare array (all text, no image
regions); NFC-normalize each text (absent text becomes `""`); anything
else yields `none`. -/
def parseGeminiResponse (nfc : String → String) (parsed : GeminiJson) :
    Option OcrRouteResult :=
  match parsed with
  | .object (some textElements) imageRegions =>
    some
      { textElements := textElements.map fun el =>
          { text := nfc (el.text.getD "")
            x := el.x, y := el.y, width := el.width, height := el.height
            fontSize := el.fontSize }
        imageRegions := imageRegions.getD [] }
  | .object none _ => none
  | .array elems =>
    some
      { textElements := elems.map fun el =>
          { text := nfc (el.text.getD "")
            x := el.x, y := el.y, width := el.width, height := el.height
            fontSize := el.fontSize }
        imageRegions := [] }
  | .malformed => none

/-- `route.ts` lines 54-81: health-probe the local PaddleOCR server (probe
failures are caught and skipped), then call its `/ocr` endpoint. An
exception of the `/ocr` call itself is *not* caught inside `tryPaddleOcr`
and propagates to `POST`'s catch (`Except.error`); a non-ok `/ocr`
response is a skip. A successful body is converted to the common shape
with `data.textElements || []` and empty image regions — no NFC
normalization happens on this path. -/
def tryPaddleOcr (env : RouteEnv) : Except String (Option OcrRouteResult) :=
  match env.paddleHealth with
  | .thrown _ => .ok none
  | .notOk => .ok none
  | .ok _ =>
    match env.paddleOcr with
    | .thrown msg => .error msg
    | .notOk => .ok none
    | .ok data =>
      .ok (some { textElements := data.textElements.getD []
                  imageRegions := [] })

/-- `route.ts` lines 102-151: the Vertex AI attempt; every failure in the
call is caught and becomes a skip (`none`), a missing response text is a
skip, and an unparseable response (parse gives `none`) also falls
through. -/
def tryVertexAi (env : RouteEnv) : Option OcrRouteResult :=
  match env.vertexResponse with
  | none => none
  | some none => none
  | some (some j) => parseGeminiResponse env.nfc j

/-- `route.ts` lines 156-177: the Gemini Free attempt; a missing
`GEMINI_API_KEY` throws a hard configuration error; an unparseable
response defaults to empty element lists. -/
def tryGeminiFree (env : RouteEnv) : Except String OcrRouteResult :=
  match env.geminiKey with
  | none => .error "GEMINI_API_KEY가 설정되지 않았습니다."
  | some _ =>
    match env.geminiCall with
    | .error msg => .error msg
    | .ok j =>
      .ok ((parseGeminiResponse env.nfc j).getD
        { textElements := [], imageRegions := [] })

/-- Prefix test on character lists (structural recursion, so that
concrete substring checks evaluate). -/
def charsPrefix : List Char → List Char → Bool
  | [], _ => true
  | _ :: _, [] => false
  | a :: as, b :: bs => a == b && charsPrefix as bs

/-- Occurrence scan on character lists. -/
def charsContains (pat : List Char) : List Char → Bool
  | [] => charsPrefix pat []
  | c :: rest => charsPrefix pat (c :: rest) || charsContains pat rest

/-- Substring test modelling JS `String.prototype.includes`. -/
def containsStr (s pat : String) : Bool :=
  charsContains pat.data s.data

/-- `route.ts` lines 256-265: map an exception message to the
user-facing error message of the 500 response. -/
def mapErrorMessage (msg : String) : String :=
  if containsStr msg "API_KEY" || containsStr msg "API key" then
    "Gemini API 키가 유효하지 않습니다. Google AI Studio에서 확인해주세요."
  else if containsStr msg "quota" || containsStr msg "rate" ||
      containsStr msg "429" then
    "API 호출 한도 초과. 잠시 후 다시 시도해주세요."
  else msg

/-- The identities of the three OCR backends, in route priority order. -/
inductive RouteBackend where
  | paddleocr
  | vertexai
  | geminiFree
  deriving DecidableEq

/-- What `POST` answers: a JSON result payload tagged with the engine
that produced it, or a 500 error response. -/
inductive RouteResponse where
  | ok (result : OcrRouteResult) (engine : String)
  | err (status : ℕ) (message : String)
  deriving DecidableEq

/-- `route.ts` lines 223-271: the main route handler — try PaddleOCR,
then Vertex AI, then Gemini Free, returning the first success; exceptions
reach the catch and produce a 500 with a mapped message. The second
component records which backends were attempted, in order. -/
def POST (env : RouteEnv) : RouteResponse × List RouteBackend :=
  match tryPaddleOcr env with
  | .error msg => (.err 500 (mapErrorMessage msg), [.paddleocr])
  | .ok (some paddleResult) => (.ok paddleResult "paddleocr", [.paddleocr])
  | .ok none =>
    match tryVertexAi env with
    | some vertexResult =>
      (.ok vertexResult "vertexai", [.paddleocr, .vertexai])
    | none =>
      match tryGeminiFree env with
      | .ok geminiResult =>
        (.ok geminiResult "gemini-free",
          [.paddleocr, .vertexai, .geminiFree])
      | .error msg =>
        (.err 500 (mapErrorMessage msg),
          [.paddleocr, .vertexai, .geminiFree])

/-! ### OCR client with circuit breaker (spec-modelled)

`src/lib/pdf/ocr-client.ts` (`extractTextWithOcr`,
`resetOcrCircuitBreaker`, `OcrRateLimitError`) is not part of the sources
available here — only its caller `loadPdfFile` is — so the orchestrator
side is modelled from the spec (§4.1, §5, §7). -/

/-- Modelled from the spec: the backend identifiers of the missing
`ocr-client.ts` orchestrator — local (PaddleOCR), managed-cloud
(Vertex AI) and public-API (Gemini Free), in priority order. -/
inductive Backend where
  | paddle
  | vertex
  | gemini
  deriving DecidableEq

/-- The orchestrator-level OCR result for one page: text elements ready
for the slide, plus OCR-reported image regions to crop. -/
structure OcrClientResult where
  textElements : List TextElement
  imageRegions : List ImageRegion
  deriving DecidableEq

/-- Modelled from the spec: how one backend behaves for one page —
success, ordinary unavailability (skip to the next backend), a rate-limit
signal (opens the breaker), or a failure carrying an error message. -/
inductive BackendOutcome where
  | success (r : OcrClientResult)
  | unavailable
  | rateLimited
  | failed (msg : String)

/-- Modelled from the spec: the failure taxonomy the orchestrator
propagates to `loadPdfFile` — the distinct rate-limit type
(`OcrRateLimitError`) or an ordinary failure with a message. -/
inductive OcrFailure where
  | rateLimited
  | failed (msg : String)
  deriving DecidableEq

/-- The error message attached to a propagated failure (rate-limit
errors carry an opaque message; only the distinct type matters). -/
def failureMessage : OcrFailure → String
  | .rateLimited => "Rate limit exceeded"
  | .failed msg => msg

/-- Modelled from the spec: try the backend chain in order against the
breaker set. A breaker-open backend is skipped outright without a call
and the rate-limit failure type is propagated immediately; an unavailable
backend advances to the next; a rate-limit signal opens the breaker and
is fatal to this page's OCR attempt. Returns the new breaker set, the
backends actually called, and the outcome. -/
def runChain (env : Backend → BackendOutcome) :
    List Backend → List Backend →
    List Backend × List Backend × Except OcrFailure OcrClientResult
  | breaker, [] => (breaker, [], .error (.failed "OCR 처리 실패"))
  | breaker, b :: rest =>
    if b ∈ breaker then (breaker, [], .error .rateLimited)
    else
      match env b with
      | .success r => (breaker, [b], .ok r)
      | .unavailable =>
        let res := runChain env breaker rest
        (res.1, b :: res.2.1, res.2.2)
      | .rateLimited => (b :: breaker, [b], .error .rateLimited)
      | .failed msg => (breaker, [b], .error (.failed msg))

/-- Modelled from the spec: one orchestrated OCR call for one page
against the current breaker state. -/
def extractTextWithOcr (breaker : List Backend)
    (env : Backend → BackendOutcome) :
    List Backend × List Backend × Except OcrFailure OcrClientResult :=
  runChain env breaker [.paddle, .vertex, .gemini]

/-- Modelled from the spec: clearing the module-scoped breaker set, as
`loadPdfFile` does once before processing any page of a new document. -/
def resetOcrCircuitBreaker (_g : List Backend) : List Backend := []

/-- The per-page OCR calls of one document run: thread the breaker
through the pages, recording for each page the backends called and the
outcome. -/
def runPages : List Backend → List (Backend → BackendOutcome) →
    List (List Backend × Except OcrFailure OcrClientResult)
  | _, [] => []
  | breaker, env :: rest =>
    let res := extractTextWithOcr breaker env
    (res.2.1, res.2.2) :: runPages res.1 rest

/-- The breaker state after processing a list of pages. -/
def breakerAfter : List Backend → List (Backend → BackendOutcome) →
    List Backend
  | breaker, [] => breaker
  | breaker, env :: rest => breakerAfter (extractTextWithOcr breaker env).1 rest

/-- A document run as `loadPdfFile` performs it: reset the (possibly
carried-over) breaker `g`, then process the pages. -/
def loadDocumentOcr (g : List Backend)
    (pages : List (Backend → BackendOutcome)) :
    List (List Backend × Except OcrFailure OcrClientResult) :=
  runPages (resetOcrCircuitBreaker g) pages

/-! ### The page loop of `loadPdfFile` (C9) -/

/-- The external collaborators' behaviour for one page of a PDF load:
the native image extraction (`none` = the call threw, caught and treated
as zero images), the per-backend OCR outcomes, whether the crop of OCR
image regions succeeds, the rendered page's pixel size, the text-layer
probe (`none` = `tryExtractText` threw) and the converted raw runs of the
text layer. -/
structure PageEnv where
  nativeImages : Option (List ImageElement)
  backendResults : Backend → BackendOutcome
  cropOk : Bool
  imgWidth : ℚ
  imgHeight : ℚ
  hasTextLayer : Option Bool
  rawRuns : List RawItem

/-- The first-page extraction-failure warning
(`presentation-store.ts` line 468). -/
def extractFailWarning : String := "텍스트/이미지 추출 실패"

/-- The companion export note pushed with it (line 469). -/
def exportNoteWarning : String := "내보내기 시 페이지 이미지가 포함됩니다."

/-- The result of processing one page in the loop of `loadPdfFile`. -/
structure PageOutput where
  breaker : List Backend
  ocrErrorMsg : Option String
  warnings : List String
  textElements : List TextElement
  imageElements : List ImageElement

/-- The OCR warning string recorded at the first OCR failure
(`presentation-store.ts` lines 447-449). -/
def ocrFailWarning : OcrFailure → String
  | .rateLimited => "OCR 실패: API 한도 초과"
  | .failed m => "OCR 실패: " ++ m

/-- The body of one page-loop iteration up to (excluding) the first-page
extraction-failure check: native image extraction (failure → zero
images), the orchestrated OCR call, cropping + deduplication of OCR
image regions on success (crop failure leaves the native images), and on
OCR failure the first-failure warning plus the text-layer fallback. -/
def processPageCore (breaker : List Backend) (ocrErrorMsg : Option String)
    (env : PageEnv) : PageOutput :=
  let images0 := env.nativeImages.getD []
  let ocr := extractTextWithOcr breaker env.backendResults
  match ocr.2.2 with
  | .ok r =>
    let imageElements :=
      if r.imageRegions ≠ [] ∧ env.cropOk then
        images0 ++ deduplicateImages images0
          (cropImageRegions env.imgWidth env.imgHeight r.imageRegions)
      else images0
    { breaker := ocr.1, ocrErrorMsg := ocrErrorMsg, warnings := [],
      textElements := r.textElements, imageElements := imageElements }
  | .error f =>
    let warnings := if ocrErrorMsg = none then [ocrFailWarning f] else []
    let newMsg :=
      if ocrErrorMsg = none then some (failureMessage f) else ocrErrorMsg
    let textElements :=
      match env.hasTextLayer with
      | some true => buildTextLayerElements env.rawRuns
      | _ => []
    { breaker := ocr.1, ocrErrorMsg := newMsg, warnings := warnings,
      textElements := textElements, imageElements := images0 }

/-- One full iteration of the page loop (`presentation-store.ts` lines
381-483): the core above followed by the first-page extraction-failure
check (lines 467-470). -/
def processPage (breaker : List Backend) (ocrErrorMsg : Option String)
    (pageIndex : ℕ) (env : PageEnv) : PageOutput :=
  let out := processPageCore breaker ocrErrorMsg env
  let failWs :=
    if pageIndex = 1 ∧ out.textElements = [] ∧ out.imageElements = [] then
      [extractFailWarning, exportNoteWarning]
    else []
  { out with warnings := out.warnings ++ failWs }

/-- The page loop itself, threading breaker state, the first-OCR-error
marker and the page counter, accumulating warnings and per-page element
sets. -/
def loadPdfPagesAux : List Backend → Option String → ℕ → List PageEnv →
    List String × List (List TextElement × List ImageElement)
  | _, _, _, [] => ([], [])
  | breaker, em, i, env :: rest =>
    let out := processPage breaker em i env
    let restOut := loadPdfPagesAux out.breaker out.ocrErrorMsg (i + 1) rest
    (out.warnings ++ restOut.1,
      (out.textElements, out.imageElements) :: restOut.2)

/-- `loadPdfFile`'s document processing: reset the circuit breaker, then
run the page loop with page indices starting at 1. -/
def loadPdfPages (g : List Backend) (pages : List PageEnv) :
    List String × List (List TextElement × List ImageElement) :=
  loadPdfPagesAux (resetOcrCircuitBreaker g) none 1 pages

/-- The single element `cropImageRegions` constructs on a 100×100 page
from one out-of-range region `⟨-5, 120, 200, 0⟩` (used to evaluate the
clamping theorem on a concrete input). -/
def sampleCroppedElement : ImageElement :=
  { x := max 0 (min 100 (-5 : ℚ))
    y := max 0 (min 100 (120 : ℚ))
    width := max 1 (min 100 (200 : ℚ))
    height := max 1 (min 100 (0 : ℚ))
    id := "uuid"
    imageUrl := "blob"
    imageBase64 := "base64"
    mimeType := "image/png"
    originalWidth := max 1 (round ((200 : ℚ) / 100 * 100))
    originalHeight := max 1 (round ((0 : ℚ) / 100 * 100)) }

/-! ### Theorems -/

lemma hasSignificantOverlap_iff (a b : Box) :
    hasSignificantOverlap a b = true ↔ 1/2 < overlapRatio a b := by
  unfold hasSignificantOverlap overlapRatio intersectionArea
  by_cases hdeg : min (a.x + a.width) (b.x + b.width) ≤ max a.x b.x ∨
      min (a.y + a.height) (b.y + b.height) ≤ max a.y b.y
  · simp only [hdeg, if_true]
    have hzero : ¬ (0 < min (a.x + a.width) (b.x + b.width) - max a.x b.x ∧
        0 < min (a.y + a.height) (b.y + b.height) - max a.y b.y) := by
      rcases hdeg with h | h
      · exact fun hc => absurd hc.1 (by linarith)
      · exact fun hc => absurd hc.2 (by linarith)
    simp only [hzero, if_false]
    simp [zero_div]
  · push_neg at hdeg
    obtain ⟨hx, hy⟩ := hdeg
    have hxlt : max a.x b.x < min (a.x + a.width) (b.x + b.width) := hx
    have hylt : max a.y b.y < min (a.y + a.height) (b.y + b.height) := hy
    have haw : 0 < a.width := by
      have h1 : a.x ≤ max a.x b.x := le_max_left _ _
      have h2 : min (a.x + a.width) (b.x + b.width) ≤ a.x + a.width :=
        min_le_left _ _
      linarith
    have hah : 0 < a.height := by
      have h1 : a.y ≤ max a.y b.y := le_max_left _ _
      have h2 : min (a.y + a.height) (b.y + b.height) ≤ a.y + a.height :=
        min_le_left _ _
      linarith
    have hbw : 0 < b.width := by
      have h1 : b.x ≤ max a.x b.x := le_max_right _ _
      have h2 : min (a.x + a.width) (b.x + b.width) ≤ b.x + b.width :=
        min_le_right _ _
      linarith
    have hbh : 0 < b.height := by
      have h1 : b.y ≤ max a.y b.y := le_max_right _ _
      have h2 : min (a.y + a.height) (b.y + b.height) ≤ b.y + b.height :=
        min_le_right _ _
      linarith
    have hmin : 0 < min (a.width * a.height) (b.width * b.height) :=
      lt_min (mul_pos haw hah) (mul_pos hbw hbh)
    have hcond : ¬ (min (a.x + a.width) (b.x + b.width) ≤ max a.x b.x ∨
        min (a.y + a.height) (b.y + b.height) ≤ max a.y b.y) := by
      push_neg
      exact ⟨hxlt, hylt⟩
    have hpos : (0 < min (a.x + a.width) (b.x + b.width) - max a.x b.x ∧
        0 < min (a.y + a.height) (b.y + b.height) - max a.y b.y) :=
      ⟨by linarith, by linarith⟩
    simp only [hcond, if_false, hpos, if_true, decide_eq_true_eq]
    constructor
    · exact fun h => h.2
    · exact fun h => ⟨hmin, h⟩

/-- C2: deduplication drops a candidate exactly when its overlap ratio
(intersection over smaller area) with some trusted box exceeds 1/2; every
candidate at ratio ≤ 1/2 against all trusted boxes survives; the output is
a sublist of the candidates only, and the trusted boxes all survive the
combined `trusted ++ deduplicated` update used by the page loop. -/
theorem deduplicateImages_spec (pdfImages ocrCroppedImages : List ImageElement) :
    (∀ c, c ∈ deduplicateImages pdfImages ocrCroppedImages ↔
      (c ∈ ocrCroppedImages ∧
        ∀ t ∈ pdfImages, overlapRatio c.toBox t.toBox ≤ 1/2)) ∧
    (deduplicateImages pdfImages ocrCroppedImages).Sublist ocrCroppedImages ∧
    (∀ t ∈ pdfImages,
      t ∈ pdfImages ++ deduplicateImages pdfImages ocrCroppedImages) := by
  refine ⟨?_, ?_, ?_⟩
  · intro c
    unfold deduplicateImages
    by_cases hp : pdfImages = []
    · subst hp
      simp
    · simp only [hp, if_false, List.mem_filter, Bool.not_eq_eq_eq_not,
        Bool.not_true, List.any_eq_false]
      constructor
      · rintro ⟨hc, hall⟩
        refine ⟨hc, fun t ht => ?_⟩
        have := hall t ht
        have hiff := hasSignificantOverlap_iff c.toBox t.toBox
        by_contra hlt
        push_neg at hlt
        exact absurd (hiff.mpr hlt) (by simp [this])
      · rintro ⟨hc, hall⟩
        refine ⟨hc, fun t ht htr => ?_⟩
        have h1 := (hasSignificantOverlap_iff c.toBox t.toBox).mp htr
        have h2 := hall t ht
        linarith
  · unfold deduplicateImages
    by_cases hp : pdfImages = []
    · simp [hp]
    · simp only [hp, if_false]
      exact List.filter_sublist _
  · intro t ht
    exact List.mem_append_left _ ht

/-- C8: the significant-overlap predicate used by the deduplicator is
symmetric in its two arguments. -/
theorem hasSignificantOverlap_symm (a b : Box) :
    hasSignificantOverlap a b = hasSignificantOverlap b a := by
  simp only [hasSignificantOverlap]
  rw [max_comm a.x b.x, max_comm a.y b.y,
    min_comm (a.x + a.width) (b.x + b.width),
    min_comm (a.y + a.height) (b.y + b.height),
    min_comm (a.width * a.height) (b.width * b.height)]

/-- C3 counterexample: a run that merges into the open block but is not
covered by the merged block's bounding box — the block keeps `y = 0` and
`height = max 1 1 = 1`, while the merged run spans down to `y = 1.7`.
Here `cur = ⟨"A", x 0, y 0, w 10, h 1⟩`, `item = ⟨"B", x 0, y 0.7, w 5, h 1⟩`:
the merge condition holds (`|0.7| ≤ 0.7·max(1,1)`, gap `-10 < 3`), yet the
resulting block's bottom edge lies strictly above the run's bottom edge. -/
theorem mergeLoop_cover_counterexample :
    shouldMerge ⟨"A", 0, 0, 10, 1, 1⟩ ⟨"B", 0, 7/10, 5, 1, 1⟩ ∧
    mergeLoop ⟨"A", 0, 0, 10, 1, 1⟩ [⟨"B", 0, 7/10, 5, 1, 1⟩] =
      [mergeTwo ⟨"A", 0, 0, 10, 1, 1⟩ ⟨"B", 0, 7/10, 5, 1, 1⟩] ∧
    (mergeTwo ⟨"A", 0, 0, 10, 1, 1⟩ ⟨"B", 0, 7/10, 5, 1, 1⟩).y +
        (mergeTwo ⟨"A", 0, 0, 10, 1, 1⟩ ⟨"B", 0, 7/10, 5, 1, 1⟩).height <
      (7/10 : ℚ) + 1 := by
  have hsm : shouldMerge ⟨"A", 0, 0, 10, 1, 1⟩ ⟨"B", 0, 7/10, 5, 1, 1⟩ := by
    constructor
    · show |(7/10 : ℚ) - 0| ≤ max 1 1 * (7/10)
      rw [max_self]
      rw [abs_of_nonneg (by norm_num)]
      norm_num
    · show (0 : ℚ) - (0 + 10) < 3
      norm_num
  refine ⟨hsm, ?_, ?_⟩
  · simp [mergeLoop, hsm]
  · show (0 : ℚ) + max 1 1 < 7/10 + 1
    rw [max_self]
    norm_num

/-- C3 (amended): one step of the merge sweep — the run merges into the
open block iff `|Δy| ≤ 0.7·max(heights)` and the gap is `< 3`; on a merge
the text is appended with a single space exactly when the gap exceeds
`0.5`, the block keeps its `x` and `y`, its width is extended so that its
right edge reaches at least the run's right edge, and its height and font
size become the maxima seen (the run may still extend below the block, so
the box is not always extended to fully cover the run); otherwise the
block is closed and a new block starts at the run. -/
theorem mergeStep_spec (cur item : RawItem) (rest : List RawItem) :
    (shouldMerge cur item ↔
      (|item.y - cur.y| ≤ (7/10) * max cur.height item.height ∧
        item.x - (cur.x + cur.width) < 3)) ∧
    (shouldMerge cur item →
      mergeLoop cur (item :: rest) = mergeLoop (mergeTwo cur item) rest) ∧
    (¬ shouldMerge cur item →
      mergeLoop cur (item :: rest) = cur :: mergeLoop item rest) ∧
    (mergeTwo cur item).text =
      cur.text ++
        ((if 1/2 < item.x - (cur.x + cur.width) then " " else "") ++
          item.text) ∧
    (mergeTwo cur item).x = cur.x ∧
    (mergeTwo cur item).y = cur.y ∧
    (mergeTwo cur item).width = max cur.width (item.x + item.width - cur.x) ∧
    (mergeTwo cur item).height = max cur.height item.height ∧
    (mergeTwo cur item).fontSize = max cur.fontSize item.fontSize ∧
    item.x + item.width ≤ cur.x + (mergeTwo cur item).width := by
  refine ⟨?_, ?_, ?_, rfl, rfl, rfl, rfl, rfl, rfl, ?_⟩
  · unfold shouldMerge
    rw [mul_comm]
  · intro h
    simp [mergeLoop, h]
  · intro h
    simp [mergeLoop, h]
  · show item.x + item.width ≤
      cur.x + max cur.width (item.x + item.width - cur.x)
    have := le_max_right cur.width (item.x + item.width - cur.x)
    linarith

lemma mergeLoopRuns_fst (cur : RawItem) (grp rest : List RawItem) :
    (mergeLoopRuns (cur, grp) rest).map Prod.fst = mergeLoop cur rest := by
  induction rest generalizing cur grp with
  | nil => simp [mergeLoopRuns, mergeLoop]
  | cons item rest ih =>
    by_cases h : shouldMerge cur item
    · simp [mergeLoopRuns, mergeLoop, h, ih]
    · simp [mergeLoopRuns, mergeLoop, h, ih]

lemma mergeLoopRuns_join (cur : RawItem) (grp rest : List RawItem) :
    ((mergeLoopRuns (cur, grp) rest).map Prod.snd).flatten = grp ++ rest := by
  induction rest generalizing cur grp with
  | nil => simp [mergeLoopRuns]
  | cons item rest ih =>
    by_cases h : shouldMerge cur item
    · simp [mergeLoopRuns, h, ih]
    · simp [mergeLoopRuns, h, ih]

lemma mergeLoopRuns_fold (rest : List RawItem) :
    ∀ (g0 : RawItem) (gs : List RawItem),
      ∀ b ∈ mergeLoopRuns (gs.foldl mergeTwo g0, g0 :: gs) rest,
        ∃ h0 hs, b.2 = h0 :: hs ∧ b.1 = hs.foldl mergeTwo h0 := by
  induction rest with
  | nil =>
    intro g0 gs b hb
    simp only [mergeLoopRuns, List.mem_singleton] at hb
    exact ⟨g0, gs, by simp [hb]⟩
  | cons item rest ih =>
    intro g0 gs b hb
    by_cases h : shouldMerge (gs.foldl mergeTwo g0) item
    · simp only [mergeLoopRuns, h, if_true] at hb
      have hfold : mergeTwo (gs.foldl mergeTwo g0) item =
          (gs ++ [item]).foldl mergeTwo g0 := by
        simp [List.foldl_append]
      rw [hfold] at hb
      have : g0 :: gs ++ [item] = g0 :: (gs ++ [item]) := by simp
      rw [this] at hb
      exact ih g0 (gs ++ [item]) b hb
    · simp only [mergeLoopRuns, h, if_false, List.mem_cons] at hb
      rcases hb with hb | hb
      · exact ⟨g0, gs, by simp [hb]⟩
      · have := ih item [] b (by simpa using hb)
        exact this

/-- C7 counterexample: two runs that the sweep merges into one block in
descending horizontal order. `A = ⟨"A", x 50, y 0, w 1, h 1⟩` sorts before
`B = ⟨"B", x 0, y 1/2, w 1, h 1⟩` (smaller `y`); they are vertically
compatible (`|Δy| = 1/2 ≤ 0.7`) and merge (gap `-51 < 3`), producing one
block whose text is `"AB"` even though `B.x = 0 < 50 = A.x` — the
concatenation order does not match ascending horizontal position. -/
theorem merge_order_counterexample :
    sortRuns [⟨"A", 50, 0, 1, 1, 1⟩, ⟨"B", 0, 1/2, 1, 1, 1⟩] =
      [⟨"A", 50, 0, 1, 1, 1⟩, ⟨"B", 0, 1/2, 1, 1, 1⟩] ∧
    mergeLoopRuns (⟨"A", 50, 0, 1, 1, 1⟩, [⟨"A", 50, 0, 1, 1, 1⟩])
        [⟨"B", 0, 1/2, 1, 1, 1⟩] =
      [(mergeTwo ⟨"A", 50, 0, 1, 1, 1⟩ ⟨"B", 0, 1/2, 1, 1, 1⟩,
        [⟨"A", 50, 0, 1, 1, 1⟩, ⟨"B", 0, 1/2, 1, 1, 1⟩])] ∧
    (mergeTwo ⟨"A", 50, 0, 1, 1, 1⟩ ⟨"B", 0, 1/2, 1, 1, 1⟩).text = "AB" ∧
    (buildTextLayerElements [⟨"A", 50, 0, 1, 1, 1⟩, ⟨"B", 0, 1/2, 1, 1, 1⟩]).map
        TextElement.text = ["AB"] ∧
    ((⟨"B", 0, 1/2, 1, 1, 1⟩ : RawItem).x <
      (⟨"A", 50, 0, 1, 1, 1⟩ : RawItem).x) := by
  have hsm : shouldMerge ⟨"A", 50, 0, 1, 1, 1⟩ ⟨"B", 0, 1/2, 1, 1, 1⟩ := by
    constructor
    · show |(1/2 : ℚ) - 0| ≤ max 1 1 * (7/10)
      rw [max_self, abs_of_nonneg (by norm_num)]
      norm_num
    · show (0 : ℚ) - (50 + 1) < 3
      norm_num
  have hsort : sortRuns [⟨"A", 50, 0, 1, 1, 1⟩, ⟨"B", 0, 1/2, 1, 1, 1⟩] =
      [⟨"A", 50, 0, 1, 1, 1⟩, ⟨"B", 0, 1/2, 1, 1, 1⟩] := by
    simp only [sortRuns, List.mergeSort]
    norm_num
  have htext : (mergeTwo ⟨"A", 50, 0, 1, 1, 1⟩ ⟨"B", 0, 1/2, 1, 1, 1⟩).text =
      "AB" := by
    show "A" ++ ((if (1/2 : ℚ) < 0 - (50 + 1) then " " else "") ++ "B") = "AB"
    rw [if_neg (by norm_num)]
    decide
  refine ⟨hsort, ?_, htext, ?_, by norm_num⟩
  · simp only [mergeLoopRuns]
    rw [if_pos hsm]
    simp [mergeLoopRuns]
  · unfold buildTextLayerElements
    rw [hsort]
    simp only [mergeLoop]
    rw [if_pos hsm]
    have hmt : (mergedToTextElement
        (mergeTwo ⟨"A", 50, 0, 1, 1, 1⟩ ⟨"B", 0, 1/2, 1, 1, 1⟩)).text =
        "AB" := htext
    simp only [mergeLoop, List.map_cons, List.map_nil, hmt]

/-- C7 (amended): the merge sweep consumes the sorted runs in order and
never reorders them — the constituent runs of the output blocks, read
block by block, are exactly the sorted input sequence, and every block is
the left fold of `mergeTwo` over its constituents in that order (so each
block's text concatenates constituent texts in sorted reading order:
ascending `y`, ties by ascending `x` — not ascending `x` alone). -/
theorem mergeRuns_order_spec (raw : List RawItem) (first : RawItem)
    (rest : List RawItem) (h : sortRuns raw = first :: rest) :
    ((mergeLoopRuns (first, [first]) rest).map Prod.fst).map
        mergedToTextElement = buildTextLayerElements raw ∧
    ((mergeLoopRuns (first, [first]) rest).map Prod.snd).flatten =
      first :: rest ∧
    ∀ b ∈ mergeLoopRuns (first, [first]) rest,
      ∃ g0 gs, b.2 = g0 :: gs ∧ b.1 = gs.foldl mergeTwo g0 := by
  refine ⟨?_, ?_, ?_⟩
  · rw [mergeLoopRuns_fst]
    unfold buildTextLayerElements
    rw [h]
  · simpa using mergeLoopRuns_join first [first] rest
  · have := mergeLoopRuns_fold rest first []
    simpa using this

/-- C4: every box constructed from untrusted input — OCR regions cropped
into `ImageElement`s by `cropImageRegions`, and text-layer fallback
`TextElement`s built by `buildTextLayerElements` — has `x, y ∈ [0, 100]`
and `width, height ∈ [1, 100]` (hence positive), for arbitrary inputs. -/
theorem untrusted_box_clamped (imgWidth imgHeight : ℚ)
    (regions : List ImageRegion) (rawItems : List RawItem) :
    (∀ e ∈ cropImageRegions imgWidth imgHeight regions,
      0 ≤ e.x ∧ e.x ≤ 100 ∧ 0 ≤ e.y ∧ e.y ≤ 100 ∧
      1 ≤ e.width ∧ e.width ≤ 100 ∧ 1 ≤ e.height ∧ e.height ≤ 100 ∧
      0 < e.width ∧ 0 < e.height) ∧
    (∀ t ∈ buildTextLayerElements rawItems,
      0 ≤ t.x ∧ t.x ≤ 100 ∧ 0 ≤ t.y ∧ t.y ≤ 100 ∧
      1 ≤ t.width ∧ t.width ≤ 100 ∧ 1 ≤ t.height ∧ t.height ≤ 100 ∧
      0 < t.width ∧ 0 < t.height) := by
  have hfield : ∀ q : ℚ, 0 ≤ max 0 (min 100 q) ∧ max 0 (min 100 q) ≤ 100 :=
    fun q => ⟨le_max_left _ _,
      max_le (by norm_num) (min_le_left _ _)⟩
  have hdim : ∀ q : ℚ, 1 ≤ max 1 (min 100 q) ∧ max 1 (min 100 q) ≤ 100 :=
    fun q => ⟨le_max_left _ _,
      max_le (by norm_num) (min_le_left _ _)⟩
  constructor
  · intro e he
    unfold cropImageRegions at he
    rw [List.mem_map] at he
    obtain ⟨region, _, rfl⟩ := he
    refine ⟨(hfield region.x).1, (hfield region.x).2,
      (hfield region.y).1, (hfield region.y).2,
      (hdim region.width).1, (hdim region.width).2,
      (hdim region.height).1, (hdim region.height).2, ?_, ?_⟩
    · exact lt_of_lt_of_le (by norm_num) (hdim region.width).1
    · exact lt_of_lt_of_le (by norm_num) (hdim region.height).1
  · intro t ht
    unfold buildTextLayerElements at ht
    rcases hs : sortRuns rawItems with _ | ⟨first, rest⟩
    · rw [hs] at ht
      simp at ht
    · rw [hs] at ht
      rw [List.mem_map] at ht
      obtain ⟨m, _, rfl⟩ := ht
      unfold mergedToTextElement
      refine ⟨(hfield m.x).1, (hfield m.x).2,
        (hfield m.y).1, (hfield m.y).2,
        (hdim m.width).1, (hdim m.width).2,
        (hdim m.height).1, (hdim m.height).2, ?_, ?_⟩
      · exact lt_of_lt_of_le (by norm_num) (hdim m.width).1
      · exact lt_of_lt_of_le (by norm_num) (hdim m.height).1

/-- C10: `updateTextElement` touches only the matching text element of the
matching slide, applying the updates and forcing `isEdited := true`; every
other element, every other slide, each slide's image elements, the other
presentation fields and the rest of the store state are unchanged, and the
call is a no-op when no presentation is loaded. -/
theorem updateTextElement_spec (slideId elementId : String)
    (u : TextElementUpdates) (s : StoreState) :
    (s.presentation = none → updateTextElement slideId elementId u s = s) ∧
    (∀ p, s.presentation = some p →
      ∃ p', updateTextElement slideId elementId u s =
          { s with presentation := some p' } ∧
        p'.id = p.id ∧ p'.fileName = p.fileName ∧
        p'.currentSlideIndex = p.currentSlideIndex ∧
        p'.activeLanguage = p.activeLanguage ∧
        p'.outputFormat = p.outputFormat ∧
        p'.inputFileType = p.inputFileType ∧
        p'.slides.length = p.slides.length ∧
        ∀ j sl sl', p.slides.get? j = some sl → p'.slides.get? j = some sl' →
          (sl.id ≠ slideId → sl' = sl) ∧
          (sl.id = slideId →
            sl'.id = sl.id ∧ sl'.pageIndex = sl.pageIndex ∧
            sl'.backgroundImage = sl.backgroundImage ∧
            sl'.backgroundImageBase64 = sl.backgroundImageBase64 ∧
            sl'.thumbnailImage = sl.thumbnailImage ∧
            sl'.imageElements = sl.imageElements ∧
            sl'.width = sl.width ∧ sl'.height = sl.height ∧
            sl'.textElements.length = sl.textElements.length ∧
            ∀ k e e', sl.textElements.get? k = some e →
              sl'.textElements.get? k = some e' →
              (e.id ≠ elementId → e' = e) ∧
              (e.id = elementId →
                e' = applyUpdates e u ∧ e'.isEdited = true))) := by
  constructor
  · intro h
    unfold updateTextElement
    rw [h]
  · intro p hp
    refine ⟨{ p with slides := p.slides.map fun slide =>
      if slide.id ≠ slideId then slide
      else
        { slide with
          textElements := slide.textElements.map fun el =>
            if el.id ≠ elementId then el
            else applyUpdates el u } },
      ?_, rfl, rfl, rfl, rfl, rfl, rfl, by simp, ?_⟩
    · unfold updateTextElement
      rw [hp]
    · intro j sl sl' hsl hsl'
      simp only [List.get?_eq_getElem?, List.getElem?_map] at hsl'
      rw [List.get?_eq_getElem? ] at hsl
      rw [hsl] at hsl'
      simp only [Option.map_some'] at hsl'
      injection hsl' with hsl'
      constructor
      · intro hne
        rw [← hsl', if_pos hne]
      · intro heq
        rw [← hsl', if_neg (by simp [heq])]
        refine ⟨rfl, rfl, rfl, rfl, rfl, rfl, rfl, rfl, by simp, ?_⟩
        intro k e e' he he'
        simp only [List.get?_eq_getElem?, List.getElem?_map] at he'
        rw [List.get?_eq_getElem?] at he
        rw [he] at he'
        simp only [Option.map_some'] at he'
        injection he' with he'
        constructor
        · intro hne2
          rw [← he', if_pos hne2]
        · intro heq2
          rw [← he', if_neg (by simp [heq2])]
          exact ⟨rfl, rfl⟩

/-- C1: the route tries the backends strictly in priority order — local
PaddleOCR, then Vertex AI, then Gemini Free — and returns the first
success without attempting any later backend; when the Gemini Free
backend is reached with no API key configured, the request fails hard
with a 500 error surfaced to the caller (the missing-key message contains
`API_KEY`, so the catch maps it to the invalid-key error), with no
further fallback. -/
theorem POST_priority_spec (env : RouteEnv) :
    (∀ r, tryPaddleOcr env = .ok (some r) →
      POST env = (.ok r "paddleocr", [.paddleocr])) ∧
    (∀ r, tryPaddleOcr env = .ok none → tryVertexAi env = some r →
      POST env = (.ok r "vertexai", [.paddleocr, .vertexai])) ∧
    (∀ r, tryPaddleOcr env = .ok none → tryVertexAi env = none →
      tryGeminiFree env = .ok r →
      POST env =
        (.ok r "gemini-free", [.paddleocr, .vertexai, .geminiFree])) ∧
    (tryPaddleOcr env = .ok none → tryVertexAi env = none →
      env.geminiKey = none →
      POST env =
        (.err 500
          "Gemini API 키가 유효하지 않습니다. Google AI Studio에서 확인해주세요.",
          [.paddleocr, .vertexai, .geminiFree])) := by
  refine ⟨?_, ?_, ?_, ?_⟩
  · intro r hp
    unfold POST
    rw [hp]
  · intro r hp hv
    unfold POST
    rw [hp, hv]
  · intro r hp hv hg
    unfold POST
    rw [hp, hv, hg]
  · intro hp hv hk
    have hg : tryGeminiFree env = .error "GEMINI_API_KEY가 설정되지 않았습니다." := by
      unfold tryGeminiFree
      rw [hk]
    have h1 : containsStr "GEMINI_API_KEY가 설정되지 않았습니다." "API_KEY" = true := by
      decide
    have hmap : mapErrorMessage "GEMINI_API_KEY가 설정되지 않았습니다." =
        "Gemini API 키가 유효하지 않습니다. Google AI Studio에서 확인해주세요." := by
      unfold mapErrorMessage
      simp [h1]
    unfold POST
    rw [hp, hv, hg]
    simp [hmap]

/-- C6 counterexample: the PaddleOCR path performs no NFC normalization.
With a runtime normalizer `nfc = fun _ => "N"` (which would change every
text), a healthy Paddle backend returning one element with text `"a"`
makes the route answer with that element's text still `"a"`, untouched by
`nfc` — so "normalization applies NFC to each text element's text" fails
for the local backend's responses. -/
theorem paddle_no_nfc_counterexample :
    (POST { nfc := fun _ => "N"
            paddleHealth := .ok ()
            paddleOcr := .ok { textElements := some [⟨"a", 0, 0, 1, 1, 1⟩] }
            vertexResponse := none
            geminiKey := none
            geminiCall := .error "e" }).1 =
      .ok { textElements := [⟨"a", 0, 0, 1, 1, 1⟩], imageRegions := [] }
        "paddleocr" ∧
    (fun (_ : String) => "N") "a" ≠ "a" := by
  refine ⟨rfl, by decide⟩

/-- C6 (amended): every backend's raw response is converted to the common
`OcrResult` shape, and on the Gemini/Vertex parse path each text
element's text is NFC-normalized (absent text defaulting to `""`), with
both accepted shapes — an object with explicit `textElements` /
`imageRegions` fields, or a bare JSON array interpreted as all text
elements with an empty `imageRegions` list — while the PaddleOCR path
converts to the common shape (`data.textElements || []`, empty
`imageRegions`) without applying NFC normalization to the texts. -/
theorem responseNormalization_spec (nfc : String → String)
    (tes : List RawJsonTextElement) (ir : Option (List OcrImageRegion))
    (data : PaddleBody) (env : RouteEnv) :
    parseGeminiResponse nfc (.object (some tes) ir) =
      some
        { textElements := tes.map fun el =>
            { text := nfc (el.text.getD "")
              x := el.x, y := el.y, width := el.width, height := el.height
              fontSize := el.fontSize }
          imageRegions := ir.getD [] } ∧
    parseGeminiResponse nfc (.array tes) =
      some
        { textElements := tes.map fun el =>
            { text := nfc (el.text.getD "")
              x := el.x, y := el.y, width := el.width, height := el.height
              fontSize := el.fontSize }
          imageRegions := [] } ∧
    parseGeminiResponse nfc .malformed = none ∧
    parseGeminiResponse nfc (.object none ir) = none ∧
    (env.paddleHealth = .ok () → env.paddleOcr = .ok data →
      tryPaddleOcr env =
        .ok (some { textElements := data.textElements.getD []
                    imageRegions := [] })) := by
  refine ⟨rfl, rfl, rfl, rfl, ?_⟩
  intro hh ho
  unfold tryPaddleOcr
  rw [hh, ho]

lemma runChain_mono (env : Backend → BackendOutcome) (chain : List Backend) :
    ∀ breaker, breaker ⊆ (runChain env breaker chain).1 := by
  induction chain with
  | nil => intro breaker; exact fun _ h => h
  | cons b rest ih =>
    intro breaker
    unfold runChain
    by_cases hb : b ∈ breaker
    · simp only [hb, if_true]
      exact fun _ h => h
    · simp only [hb, if_false]
      cases env b with
      | success r => exact fun _ h => h
      | unavailable => exact ih breaker
      | rateLimited => exact fun x h => List.mem_cons_of_mem _ h
      | failed msg => exact fun _ h => h

lemma runChain_calls (env : Backend → BackendOutcome) (chain : List Backend) :
    ∀ breaker c, c ∈ (runChain env breaker chain).2.1 → c ∉ breaker := by
  induction chain with
  | nil =>
    intro breaker c hc
    simp [runChain] at hc
  | cons b rest ih =>
    intro breaker c hc
    unfold runChain at hc
    by_cases hb : b ∈ breaker
    · simp [hb] at hc
    · simp only [hb, if_false] at hc
      cases henv : env b with
      | success r =>
        rw [henv] at hc
        simp only [List.mem_singleton] at hc
        subst hc; exact hb
      | unavailable =>
        rw [henv] at hc
        simp only [List.mem_cons] at hc
        rcases hc with rfl | hc
        · exact hb
        · exact ih breaker c hc
      | rateLimited =>
        rw [henv] at hc
        simp only [List.mem_singleton] at hc
        subst hc; exact hb
      | failed msg =>
        rw [henv] at hc
        simp only [List.mem_singleton] at hc
        subst hc; exact hb

lemma runPages_skip (pages : List (Backend → BackendOutcome)) :
    ∀ breaker b, b ∈ breaker →
      ∀ entry ∈ runPages breaker pages, b ∉ entry.1 := by
  induction pages with
  | nil => intro breaker b _ entry hentry; simp [runPages] at hentry
  | cons env rest ih =>
    intro breaker b hb entry hentry
    unfold runPages at hentry
    simp only [List.mem_cons] at hentry
    rcases hentry with rfl | hentry
    · intro hmem
      exact absurd hb (runChain_calls env _ breaker b hmem)
    · exact ih _ b (runChain_mono env _ breaker hb) entry hentry

lemma runPages_append (p2 : List (Backend → BackendOutcome)) :
    ∀ (p1 : List (Backend → BackendOutcome)) breaker,
      runPages breaker (p1 ++ p2) =
        runPages breaker p1 ++ runPages (breakerAfter breaker p1) p2 := by
  intro p1
  induction p1 with
  | nil => intro breaker; simp [runPages, breakerAfter]
  | cons env rest ih =>
    intro breaker
    simp only [List.cons_append, runPages, breakerAfter, List.append_eq]
    rw [ih]

/-- C5: (i) a document run is independent of any breaker state carried
over from a previous document — the breaker is cleared at load start,
before any page; (ii) a breaker-open backend is never called on any
later page and stays open; (iii) splitting a document at any page
boundary, every backend open after the prefix is absent from every call
list of the remaining pages — once the breaker opens during a document,
that backend receives no further OCR call in that document; (iv) when the
chain reaches a breaker-open backend (here: Gemini open, earlier backends
unavailable), the distinct rate-limit failure type is propagated
immediately. -/
theorem circuitBreaker_spec :
    (∀ g g' pages, loadDocumentOcr g pages = loadDocumentOcr g' pages ∧
      loadDocumentOcr g pages = runPages [] pages) ∧
    (∀ breaker env b, b ∈ breaker →
      b ∈ (extractTextWithOcr breaker env).1 ∧
      b ∉ (extractTextWithOcr breaker env).2.1) ∧
    (∀ p1 p2 b, b ∈ breakerAfter [] p1 →
      runPages [] (p1 ++ p2) =
        runPages [] p1 ++ runPages (breakerAfter [] p1) p2 ∧
      ∀ entry ∈ runPages (breakerAfter [] p1) p2, b ∉ entry.1) ∧
    (∀ breaker env, Backend.gemini ∈ breaker →
      env Backend.paddle = .unavailable → env Backend.vertex = .unavailable →
      (extractTextWithOcr breaker env).2.2 = .error .rateLimited) := by
  refine ⟨?_, ?_, ?_, ?_⟩
  · intro g g' pages
    exact ⟨rfl, rfl⟩
  · intro breaker env b hb
    refine ⟨runChain_mono env _ breaker hb, fun hmem => ?_⟩
    exact absurd hb (runChain_calls env _ breaker b hmem)
  · intro p1 p2 b hb
    refine ⟨runPages_append p2 p1 [], ?_⟩
    exact runPages_skip p2 _ b hb
  · intro breaker env hg hp hv
    by_cases hpb : Backend.paddle ∈ breaker
    · simp [extractTextWithOcr, runChain, hpb]
    · by_cases hvb : Backend.vertex ∈ breaker
      · simp [extractTextWithOcr, runChain, hpb, hp, hvb]
      · simp [extractTextWithOcr, runChain, hpb, hp, hvb, hv, hg]

lemma ocr_warning_ne_extractFail (m : String) :
    ("OCR 실패: " ++ m) ≠ extractFailWarning := by
  intro h
  have hd := congrArg String.data h
  rw [String.data_append] at hd
  rw [show "OCR 실패: ".data =
    'O' :: 'C' :: 'R' :: ' ' :: '실' :: '패' :: ':' :: ' ' :: [] from rfl] at hd
  rw [show extractFailWarning.data =
    '텍' :: '스' :: '트' :: '/' :: '이' :: '미' :: '지' :: ' ' :: '추' :: '출' ::
      ' ' :: '실' :: '패' :: [] from rfl] at hd
  simp at hd

lemma ocrFailWarning_ne_extractFail (f : OcrFailure) :
    ocrFailWarning f ≠ extractFailWarning := by
  cases f with
  | rateLimited => decide
  | failed m => exact ocr_warning_ne_extractFail m

lemma processPageCore_no_extractFail (breaker : List Backend)
    (em : Option String) (env : PageEnv) :
    extractFailWarning ∉ (processPageCore breaker em env).warnings := by
  unfold processPageCore
  cases hocr : (extractTextWithOcr breaker env.backendResults).2.2 with
  | ok r => simp [hocr]
  | error f =>
    simp only [hocr]
    by_cases hem : em = none
    · simp only [hem, if_true]
      simp only [List.mem_singleton]
      exact fun h => ocrFailWarning_ne_extractFail f h.symm
    · simp [hem]

lemma processPage_warning_count (breaker : List Backend)
    (em : Option String) (i : ℕ) (env : PageEnv) :
    (processPage breaker em i env).warnings.count extractFailWarning =
      if i = 1 ∧ (processPage breaker em i env).textElements = [] ∧
          (processPage breaker em i env).imageElements = [] then 1 else 0 := by
  have hfields :
      (processPage breaker em i env).textElements =
        (processPageCore breaker em env).textElements ∧
      (processPage breaker em i env).imageElements =
        (processPageCore breaker em env).imageElements := ⟨rfl, rfl⟩
  have hws : (processPage breaker em i env).warnings =
      (processPageCore breaker em env).warnings ++
        (if i = 1 ∧ (processPageCore breaker em env).textElements = [] ∧
            (processPageCore breaker em env).imageElements = [] then
          [extractFailWarning, exportNoteWarning]
        else []) := rfl
  rw [hws, hfields.1, hfields.2, List.count_append]
  have hcore : (processPageCore breaker em env).warnings.count
      extractFailWarning = 0 :=
    List.count_eq_zero.mpr (processPageCore_no_extractFail breaker em env)
  rw [hcore]
  split
  · have : List.count extractFailWarning
        [extractFailWarning, exportNoteWarning] = 1 := by decide
    simpa using this
  · rfl

lemma loadPdfPagesAux_no_extractFail (pages : List PageEnv) :
    ∀ breaker em i, 2 ≤ i →
      (loadPdfPagesAux breaker em i pages).1.count extractFailWarning = 0 := by
  induction pages with
  | nil => intro breaker em i _; simp [loadPdfPagesAux]
  | cons env rest ih =>
    intro breaker em i hi
    unfold loadPdfPagesAux
    simp only [List.count_append]
    rw [processPage_warning_count]
    have hne : ¬ (i = 1 ∧
        (processPage breaker em i env).textElements = [] ∧
        (processPage breaker em i env).imageElements = []) := by
      rintro ⟨rfl, -, -⟩
      omega
    rw [if_neg hne]
    rw [ih _ _ (i + 1) (by omega)]

/-- C9: across a whole document load, the extraction-failure warning is
recorded exactly once when the first page ends with zero text elements
and zero image elements, and never otherwise — in particular no later
page adds it regardless of its extraction outcome (second conjunct: a
page processed at index ≥ 2 never contributes it). -/
theorem firstPage_warning_spec (g : List Backend) (pages : List PageEnv) :
    ((loadPdfPages g pages).1.count extractFailWarning =
      match pages with
      | [] => 0
      | env :: _ =>
        if (processPage [] none 1 env).textElements = [] ∧
            (processPage [] none 1 env).imageElements = [] then 1 else 0) ∧
    (∀ breaker em i env, 2 ≤ i →
      extractFailWarning ∉ (processPage breaker em i env).warnings) := by
  constructor
  · cases pages with
    | nil => simp [loadPdfPages, loadPdfPagesAux, resetOcrCircuitBreaker]
    | cons env rest =>
      unfold loadPdfPages loadPdfPagesAux resetOcrCircuitBreaker
      simp only [List.count_append]
      rw [processPage_warning_count]
      rw [loadPdfPagesAux_no_extractFail rest _ _ 2 (by omega)]
      simp
  · intro breaker em i env hi
    intro hmem
    have hcount := processPage_warning_count breaker em i env
    have hne : ¬ (i = 1 ∧
        (processPage breaker em i env).textElements = [] ∧
        (processPage breaker em i env).imageElements = []) := by
      rintro ⟨rfl, -, -⟩
      omega
    rw [if_neg hne] at hcount
    have := List.count_pos_iff.mpr hmem
    omega

/-! ### Witnesses: the theorems above evaluated at concrete inputs -/

/-- Witness for the deduplication theorem: with one trusted box
`(0,0,10,10)` and candidates `(0,0,5,5)` (nested) and `(50,50,10,10)`
(disjoint), the disjoint candidate survives. -/
theorem deduplicateImages_spec_witness :
    ({ x := 50, y := 50, width := 10, height := 10, id := "c1",
       imageUrl := "", imageBase64 := "", mimeType := "image/png",
       originalWidth := 1, originalHeight := 1 } : ImageElement) ∈
      deduplicateImages
        [{ x := 0, y := 0, width := 10, height := 10, id := "t",
           imageUrl := "", imageBase64 := "", mimeType := "image/png",
           originalWidth := 1, originalHeight := 1 }]
        [{ x := 0, y := 0, width := 5, height := 5, id := "c0",
           imageUrl := "", imageBase64 := "", mimeType := "image/png",
           originalWidth := 1, originalHeight := 1 },
         { x := 50, y := 50, width := 10, height := 10, id := "c1",
           imageUrl := "", imageBase64 := "", mimeType := "image/png",
           originalWidth := 1, originalHeight := 1 }] :=
  ((deduplicateImages_spec _ _).1 _).mpr
    ⟨by simp, by
      intro t ht
      simp only [List.mem_singleton] at ht
      subst ht
      norm_num [overlapRatio, intersectionArea, min_def, max_def]⟩

/-- Witness for the merge-step theorem: two same-line runs with gap 1
merge, discharging the merge-condition hypothesis concretely. -/
theorem mergeStep_spec_witness :
    mergeLoop ⟨"A", 0, 0, 10, 1, 1⟩ [⟨"B", 11, 0, 5, 1, 1⟩] =
      mergeLoop (mergeTwo ⟨"A", 0, 0, 10, 1, 1⟩ ⟨"B", 11, 0, 5, 1, 1⟩) [] :=
  (mergeStep_spec ⟨"A", 0, 0, 10, 1, 1⟩ ⟨"B", 11, 0, 5, 1, 1⟩ []).2.1
    ⟨by
      show |(0 : ℚ) - 0| ≤ max 1 1 * (7/10)
      rw [sub_self, abs_zero, max_self]
      norm_num,
     by
      show (11 : ℚ) - (0 + 10) < 3
      norm_num⟩

/-- Witness for the box-clamping theorem on a concrete out-of-range
region on a 100×100 page. -/
theorem untrusted_box_clamped_witness :
    0 ≤ sampleCroppedElement.x ∧ sampleCroppedElement.x ≤ 100 ∧
    0 ≤ sampleCroppedElement.y ∧ sampleCroppedElement.y ≤ 100 ∧
    1 ≤ sampleCroppedElement.width ∧ sampleCroppedElement.width ≤ 100 ∧
    1 ≤ sampleCroppedElement.height ∧ sampleCroppedElement.height ≤ 100 ∧
    0 < sampleCroppedElement.width ∧ 0 < sampleCroppedElement.height :=
  (untrusted_box_clamped 100 100 [⟨-5, 120, 200, 0⟩] []).1
    sampleCroppedElement
    (List.mem_map_of_mem _ (List.mem_singleton.mpr rfl))

/-- Witness for the `updateTextElement` theorem: the call is a no-op on a
store with no loaded presentation. -/
theorem updateTextElement_spec_witness :
    updateTextElement "s" "e" {}
        { presentation := none, processingStatus := "idle",
          translationStatus := "idle" } =
      { presentation := none, processingStatus := "idle",
        translationStatus := "idle" } :=
  (updateTextElement_spec "s" "e" {}
    { presentation := none, processingStatus := "idle",
      translationStatus := "idle" }).1 rfl

/-- Witness for the route-priority theorem: Paddle down, Vertex
unavailable, no Gemini key — the route answers 500 with the mapped
invalid-key message after trying all three backends. -/
theorem POST_priority_spec_witness :
    POST { nfc := id, paddleHealth := .notOk, paddleOcr := .notOk,
           vertexResponse := none, geminiKey := none,
           geminiCall := .error "x" } =
      (.err 500
        "Gemini API 키가 유효하지 않습니다. Google AI Studio에서 확인해주세요.",
        [.paddleocr, .vertexai, .geminiFree]) :=
  (POST_priority_spec _).2.2.2 rfl rfl rfl

/-- Witness for the normalization theorem: a healthy Paddle backend with
an absent `textElements` field yields the common shape with empty
lists. -/
theorem responseNormalization_spec_witness :
    tryPaddleOcr
        { nfc := id, paddleHealth := .ok (),
          paddleOcr := .ok { textElements := none },
          vertexResponse := none, geminiKey := none,
          geminiCall := .error "x" } =
      .ok (some { textElements := [], imageRegions := [] }) :=
  (responseNormalization_spec id [] none { textElements := none }
    { nfc := id, paddleHealth := .ok (),
      paddleOcr := .ok { textElements := none },
      vertexResponse := none, geminiKey := none,
      geminiCall := .error "x" }).2.2.2.2 rfl rfl

/-- Witness for the merge-order theorem on the one-run input. -/
theorem mergeRuns_order_spec_witness :
    ((mergeLoopRuns (⟨"A", 0, 0, 1, 1, 1⟩, [⟨"A", 0, 0, 1, 1, 1⟩]) []).map
        Prod.snd).flatten = [⟨"A", 0, 0, 1, 1, 1⟩] :=
  (mergeRuns_order_spec [⟨"A", 0, 0, 1, 1, 1⟩] ⟨"A", 0, 0, 1, 1, 1⟩ []
    (by simp [sortRuns, List.mergeSort])).2.1

/-- Witness for the circuit-breaker theorem: with the Gemini breaker
open and both other backends unavailable, Gemini is not called and the
rate-limit failure type is returned. -/
theorem circuitBreaker_spec_witness :
    (Backend.gemini ∈
        (extractTextWithOcr [Backend.gemini]
          (fun _ => BackendOutcome.unavailable)).1 ∧
      Backend.gemini ∉
        (extractTextWithOcr [Backend.gemini]
          (fun _ => BackendOutcome.unavailable)).2.1) ∧
    (extractTextWithOcr [Backend.gemini]
        (fun _ => BackendOutcome.unavailable)).2.2 =
      .error .rateLimited :=
  ⟨circuitBreaker_spec.2.1 [Backend.gemini]
      (fun _ => BackendOutcome.unavailable) Backend.gemini (by decide),
    circuitBreaker_spec.2.2.2 [Backend.gemini]
      (fun _ => BackendOutcome.unavailable) (by decide) rfl rfl⟩

/-- Witness for the first-page-warning theorem: a page processed at index
2 never contributes the extraction-failure warning. -/
theorem firstPage_warning_spec_witness :
    extractFailWarning ∉
      (processPage [] none 2
        { nativeImages := none, backendResults := fun _ => .unavailable,
          cropOk := false, imgWidth := 0, imgHeight := 0,
          hasTextLayer := none, rawRuns := [] }).warnings :=
  (firstPage_warning_spec [] []).2 [] none 2
    { nativeImages := none, backendResults := fun _ => .unavailable,
      cropOk := false, imgWidth := 0, imgHeight := 0,
      hasTextLayer := none, rawRuns := [] } (by decide)

end KCPresentation
